import Mathlib

set_option maxHeartbeats 1000000

/-!
Shallow embedding of the authentication/session subsystem of
`src/slice/server.js`, a single-process Node HTTP server fronting a small
dashboard with Google OAuth2 login.

Modelling conventions:
* Timestamps are JavaScript millisecond clock values, modelled as `Nat`.
  JavaScript subtraction `now - t` can be negative; every place the server
  compares it is of the form `now - t > TTL`, and a negative JS difference
  and the truncated `Nat` difference `0` decide that comparison identically,
  so `Nat` subtraction is a faithful model of those tests.
* The two global `Map`s (`sessions`, `oauthStates`) are modelled as
  association lists with the key in the first component; the JS `Map` keeps
  keys unique, and where a proof needs that fact it takes it as a
  `Nodup` hypothesis.
* Query parameters read as `urlObj.searchParams.get(x) || ''` are modelled
  as `String`, with `""` standing for an absent parameter (JS falsiness of
  the empty string makes the two indistinguishable to this code).
* The network calls (`exchangeCodeForToken`, `verifyGoogleIdToken`) suspend
  the handler; their combined outcome is passed to the handler model as an
  `Except String Identity` value, and the model records with a Boolean
  whether the handler reached the code-exchange call at all.
-/

namespace Slice

/-- `SESSION_TTL_MS = 1000 * 60 * 60 * 24 * 7` (server.js:16), 7 days. -/
def SESSION_TTL_MS : Nat := 1000 * 60 * 60 * 24 * 7

/-- The OAuth state TTL used by the sweep, `10 * 60 * 1000` ms
(server.js:224), 10 minutes. -/
def STATE_TTL_MS : Nat := 10 * 60 * 1000

/-- `SESSION_COOKIE = 'slice_session'` (server.js:17). -/
def SESSION_COOKIE : String := "slice_session"

/-- The normalized identity record returned by `verifyGoogleIdToken`
(server.js:146-151). -/
structure Identity where
  sub : String
  email : String
  name : String
  picture : String
deriving Repr, DecidableEq

/-- A value of the `sessions` map (server.js:98-102). -/
structure SessRec where
  user : Identity
  createdAt : Nat
  expiresAt : Nat
deriving Repr, DecidableEq

/-- The `sessions` map (server.js:27), token to record. -/
abbrev SessionStore := List (String × SessRec)

/-- `sessions.get(token)` on the association-list model. -/
def SessionStore.get (st : SessionStore) (t : String) : Option SessRec :=
  (st.find? (fun p => p.1 == t)).map Prod.snd

/-- `sessions.delete(token)` on the association-list model. -/
def SessionStore.del (st : SessionStore) (t : String) : SessionStore :=
  st.filter (fun p => p.1 != t)

/-- `getSession` (server.js:83-94), with the cookie-parsing step abstracted
to the extracted token (`cookies[SESSION_COOKIE]`, `none` when missing).
Returns the looked-up session (token paired with the record, as the JS
spreads the record and adds `token`) together with the store after the
lazy eviction the function performs. -/
def getSession (st : SessionStore) (token : Option String) (now : Nat) :
    Option (String × SessRec) × SessionStore :=
  match token with
  | none => (none, st)
  | some t =>
    match st.get t with
    | none => (none, st)
    | some sess =>
      if now > sess.expiresAt then (none, st.del t)
      else (some (t, sess), st)

/-- `createSession` (server.js:96-104); the random token is a parameter. -/
def createSession (st : SessionStore) (token : String) (user : Identity)
    (now : Nat) : String × SessionStore :=
  (token, (token, { user := user, createdAt := now,
                    expiresAt := now + SESSION_TTL_MS }) :: st)

/-- JS `String.prototype.startsWith` as a character-list prefix test. -/
def listPre : List Char → List Char → Bool
  | [], _ => true
  | _ :: _, [] => false
  | a :: as, b :: bs => a == b && listPre as bs

/-- `s.startsWith(p)` (server.js:211, 319). -/
def strStartsWith (s p : String) : Bool := listPre p.data s.data

/-- `s.endsWith(p)` (server.js:211). -/
def strEndsWith (s p : String) : Bool := listPre p.data.reverse s.data.reverse

/-- The `publicPaths` set of `requireAuth` (server.js:198-205). -/
def publicPaths : List String :=
  ["/login", "/auth/google/start", "/auth/google/callback", "/auth/logout",
   "/auth/me", "/slice-logo.svg"]

/-- The response `requireAuth` produces: let the request proceed (with the
resolved session, if any), answer 401 with the JSON envelope
`ok=false, error=...`, or redirect 302 to a location. -/
inductive GateResult where
  | proceed (session : Option (String × SessRec))
  | unauthorizedJson (status : Nat) (ok : Bool) (error : String)
  | redirect (status : Nat) (location : String)
deriving Repr, DecidableEq

/-- `requireAuth` (server.js:197-219): public-path check, then session
resolution, then the API-shape test deciding 401 JSON versus 302 to
`/login`. Returns the gate decision and the session store after the
lookup's lazy eviction. -/
def requireAuth (st : SessionStore) (token : Option String) (now : Nat)
    (pathname : String) : GateResult × SessionStore :=
  if publicPaths.contains pathname then (.proceed none, st)
  else
    match getSession st token now with
    | (some s, st2) => (.proceed (some s), st2)
    | (none, st2) =>
      if strStartsWith pathname "/api/" || strEndsWith pathname ".json" then
        (.unauthorizedJson 401 false "unauthorized", st2)
      else
        (.redirect 302 "/login", st2)

/-- JS `String.prototype.toLowerCase` modelled character-wise
(`Char.toLower` lower-cases the ASCII range, which covers the email and
path-segment strings this server compares). -/
def strToLower (s : String) : String := String.mk (s.data.map Char.toLower)

/-- JS `x || d` for an optional string `x`: falls through to `d` when the
value is absent or the empty string (both falsy). -/
def jsOr (x : Option String) (d : String) : String :=
  match x with
  | none => d
  | some s => if s = "" then d else s

/-- The fields of the `tokeninfo` JSON payload that `verifyGoogleIdToken`
reads; absent fields are `none` (JS `undefined`). -/
structure TokenInfo where
  aud : Option String
  email_verified : Option String
  email : Option String
  sub : String
  name : Option String
  picture : Option String
deriving Repr, DecidableEq

/-- The HTTPS response `verifyGoogleIdToken` gets from the provider's
verification endpoint: the status code and the result of `JSON.parse` on
the body. `parsed = none` models a `JSON.parse` throw; `parsed = some none`
models a body parsing to JS `null` (then `!payload` holds); otherwise the
payload record. -/
structure ProviderResponse where
  statusCode : Nat
  parsed : Option (Option TokenInfo)
deriving Repr, DecidableEq

/-- `verifyGoogleIdToken` (server.js:132-152) after the HTTPS call:
status check, parse check, audience check against the configured client id,
`email_verified !== 'true'` check, then the allow-list check
(`ALLOWED_EMAILS.size && !ALLOWED_EMAILS.has(email)`, server.js:144) on the
lower-cased email, and on success the normalized identity. The configured
`ALLOWED_EMAILS` set is the `allowedEmails` list parameter. -/
def verifyGoogleIdToken (clientId : String) (allowedEmails : List String)
    (resp : ProviderResponse) : Except String Identity :=
  if resp.statusCode ≠ 200 then .error "Google token verification failed"
  else
    match resp.parsed with
    | none => .error "Invalid token payload"
    | some none => .error "Invalid audience"
    | some (some payload) =>
      if payload.aud ≠ some clientId then .error "Invalid audience"
      else if payload.email_verified ≠ some "true" then .error "Email not verified"
      else
        let email := strToLower (jsOr payload.email "")
        if allowedEmails ≠ [] ∧ ¬ allowedEmails.contains email then
          .error "Email not allowed"
        else
          .ok { sub := payload.sub, email := email,
                name := jsOr payload.name email,
                picture := jsOr payload.picture "" }

/-- The rejection condition of `verifyAssertion` in the spec's words
(spec §4.3): the response is not a successful parseable payload (here a
non-200 status, an unparseable body, or a `null` payload, which carries no
audience claim), the audience claim differs from the configured client id,
the email-verified claim is not `'true'`, or the allow-list is non-empty
and does not contain the lower-cased email. Stated from the spec to be
compared against `verifyGoogleIdToken`. -/
def specVerifyRejects (clientId : String) (allowedEmails : List String)
    (resp : ProviderResponse) : Bool :=
  resp.statusCode != 200 ||
  (match resp.parsed with
   | none => true
   | some none => true
   | some (some payload) =>
     payload.aud != some clientId ||
     payload.email_verified != some "true" ||
     (!allowedEmails.isEmpty &&
      !allowedEmails.contains (strToLower (jsOr payload.email ""))))

/-- Upper-case hexadecimal digit, for percent-encoding. -/
def hexUpper (n : Nat) : Char :=
  if n < 10 then Char.ofNat (48 + n) else Char.ofNat (55 + n)

/-- The bytes `encodeURIComponent` leaves unescaped: ASCII alphanumerics
and `- _ . ! ~ * ' ( )`. -/
def isUriUnreserved (c : Nat) : Bool :=
  (65 ≤ c && c ≤ 90) || (97 ≤ c && c ≤ 122) || (48 ≤ c && c ≤ 57) ||
  c == 45 || c == 95 || c == 46 || c == 33 || c == 126 || c == 42 ||
  c == 39 || c == 40 || c == 41

/-- The UTF-8 encoding of a Unicode code point, as a byte list. -/
def utf8Bytes (n : Nat) : List Nat :=
  if n < 128 then [n]
  else if n < 2048 then [192 + n / 64, 128 + n % 64]
  else if n < 65536 then [224 + n / 4096, 128 + (n / 64) % 64, 128 + n % 64]
  else [240 + n / 262144, 128 + (n / 4096) % 64, 128 + (n / 64) % 64,
        128 + n % 64]

/-- JS `encodeURIComponent`: percent-encode every UTF-8 byte outside the
unreserved set, with upper-case hex digits. -/
def encodeURIComponent (s : String) : String :=
  String.mk (((s.data.map (fun c => utf8Bytes c.toNat)).flatten).foldr
    (fun b acc =>
      if isUriUnreserved b then Char.ofNat b :: acc
      else Char.ofNat 37 :: hexUpper (b / 16) :: hexUpper (b % 16) :: acc) [])

/-- `makeCookie` (server.js:76-81); `secure` is the `SESSION_SECURE` flag. -/
def makeCookie (name value : String) (maxAgeSeconds : Option Nat)
    (secure : Bool) : String :=
  String.intercalate "; "
    ([name ++ "=" ++ encodeURIComponent value, "Path=/", "HttpOnly",
      "SameSite=Lax"] ++
     (if secure then ["Secure"] else []) ++
     (match maxAgeSeconds with
      | none => []
      | some m => ["Max-Age=" ++ toString m]))

/-- The `oauthStates` map (server.js:28): state token to `createdAt`. -/
abbrev StateStore := List (String × Nat)

/-- `oauthStates.has(state)` on the association-list model. -/
def StateStore.hasState (st : StateStore) (s : String) : Bool :=
  st.any (fun p => p.1 == s)

/-- `oauthStates.delete(state)` on the association-list model. -/
def StateStore.del (st : StateStore) (s : String) : StateStore :=
  st.filter (fun p => p.1 != s)

/-- The body of the 60-second `setInterval` sweep (server.js:221-226):
delete every entry with `now - createdAt > STATE_TTL_MS`. -/
def sweep (now : Nat) (st : StateStore) : StateStore :=
  st.filter (fun p => !(now - p.2 > STATE_TTL_MS))

/-- The three query parameters the callback handler reads
(server.js:245-247), each defaulted to `""` when absent. -/
structure CallbackParams where
  state : String
  code : String
  error : String
deriving Repr, DecidableEq

/-- The HTTP response the callback handler produces: a bare 302 redirect,
or the success 302 that also sets the session cookie. -/
inductive HttpOut where
  | redirect (location : String)
  | redirectWithCookie (location : String) (cookie : String)
deriving Repr, DecidableEq

/-- Everything the callback handler leaves behind: the response, both
stores, and whether the handler reached the code-exchange network call. -/
structure CallbackResult where
  response : HttpOut
  oauthStates : StateStore
  sessions : SessionStore
  exchangedCode : Bool
deriving Repr, DecidableEq

/-- The `/auth/google/callback` handler (server.js:244-274): the
provider-error branch, the `!state || !oauthStates.has(state) || !code`
rejection, the `oauthStates.delete(state)` before the `try` block, and the
try/catch around code exchange plus verification. `providerResult` is the
combined outcome of the two awaited provider calls; `exchangedCode` is true
exactly when the handler enters the `try` block and so issues the exchange
request. -/
def handleCallback (params : CallbackParams) (states : StateStore)
    (sessions : SessionStore) (providerResult : Except String Identity)
    (freshToken : String) (now : Nat) (secure : Bool) : CallbackResult :=
  if params.error ≠ "" then
    { response := .redirect ("/login?error=" ++ encodeURIComponent params.error),
      oauthStates := states, sessions := sessions, exchangedCode := false }
  else if params.state = "" ∨ states.hasState params.state = false ∨ params.code = "" then
    { response := .redirect "/login?error=invalid_oauth_state",
      oauthStates := states, sessions := sessions, exchangedCode := false }
  else
    let states2 := states.del params.state
    match providerResult with
    | .ok user =>
      let created := createSession sessions freshToken user now
      { response := .redirectWithCookie "/"
          (makeCookie SESSION_COOKIE created.1 (some (SESSION_TTL_MS / 1000)) secure),
        oauthStates := states2, sessions := created.2, exchangedCode := true }
    | .error e =>
      { response := .redirect ("/login?error=" ++ encodeURIComponent e),
        oauthStates := states2, sessions := sessions, exchangedCode := true }

/-- Segments the WHATWG URL parser (Node's `new URL`, server.js:230) treats
as a double-dot path segment: `..`, `.%2e`, `%2e.`, `%2e%2e`,
case-insensitively. -/
def isDoubleDotSeg (s : String) : Bool :=
  let t := strToLower s
  t == ".." || t == ".%2e" || t == "%2e." || t == "%2e%2e"

/-- Segments the WHATWG URL parser treats as a single-dot path segment:
`.` and `%2e`, case-insensitively. -/
def isSingleDotSeg (s : String) : Bool :=
  let t := strToLower s
  t == "." || t == "%2e"

/-- Dot-segment removal performed by the WHATWG URL parser on the request
path before `urlObj.pathname` ever reaches the handler: working on the
path split at separators, a double-dot segment pops the last collected
segment, a single-dot segment is dropped, anything else (percent-encodings
are not decoded) is kept. -/
def urlRemoveDots (raw : List String) : List String :=
  raw.foldl
    (fun acc seg =>
      if isDoubleDotSeg seg then acc.dropLast
      else if isSingleDotSeg seg then acc
      else acc ++ [seg]) []

/-- One segment step of Node posix `path.normalize` on an absolute path:
empty and `.` segments vanish, `..` pops (and is dropped at the root),
anything else is kept. `path.normalize` does not percent-decode. -/
def normStep (acc : List String) (seg : String) : List String :=
  if seg = "" ∨ seg = "." then acc
  else if seg = ".." then acc.dropLast
  else acc ++ [seg]

/-- Node `path.normalize` of an absolute path, on the split representation:
`path.normalize(path.join(ROOT, reqPath))` (server.js:317) splits the
joined path at `/` and resolves dot segments left to right. -/
def normSegs (l : List String) : List String := l.foldl normStep []

/-- Rebuild the absolute path string from its segments, as the joined
strings compared by `filePath.startsWith(ROOT)` (server.js:319) are
written: a leading `/` before each segment. -/
def segsToAbs (l : List String) : String :=
  l.foldl (fun acc seg => acc ++ "/" ++ seg) ""

/-- Boolean segment-list prefix test, the semantic "resolved path lies
within the root directory" property. -/
def segPre : List String → List String → Bool
  | [], _ => true
  | _ :: _, [] => false
  | a :: as, b :: bs => a == b && segPre as bs

/-- What the static file handler decides for a request. -/
inductive StaticOutcome where
  | serve (fileSegs : List String)
  | forbidden
deriving Repr, DecidableEq

/-- The static file handler (server.js:315-322): rewrite `/` to
`/index.html`, resolve the request path under `ROOT`, and guard with the
string test `filePath.startsWith(ROOT)` before reading the file. `ROOT`
is given by its segments (`path.join(__dirname, 'web')`). The `pathname`
input is given by its segments after the leading slash; the pathname `/`
is the single empty segment. -/
def staticHandler (rootSegs : List String) (pathSegs : List String) :
    StaticOutcome :=
  let req := if pathSegs = [] ∨ pathSegs = [""] then ["index.html"] else pathSegs
  let fileSegs := normSegs (rootSegs ++ req)
  if strStartsWith (segsToAbs fileSegs) (segsToAbs rootSegs) then
    .serve fileSegs
  else
    .forbidden

/-- The full static-serving pipeline for a request: the raw request path
(split at separators) passes through the URL parser's dot-segment removal
(server.js:230) and then the static file handler. -/
def serveStatic (rootSegs : List String) (rawSegs : List String) :
    StaticOutcome :=
  staticHandler rootSegs (urlRemoveDots rawSegs)

/-- The resolved file lies within the root directory: the root's segments
are a prefix of the file's segments. -/
def withinRoot (rootSegs fileSegs : List String) : Bool :=
  segPre rootSegs fileSegs

/-! Helper lemmas about the association-list model of the two maps. -/

/-- Looking up a key in a list from which that key was just filtered out
finds nothing. -/
theorem find?_filter_ne {α : Type} (l : List (String × α)) (t : String) :
    (l.filter (fun p => p.1 != t)).find? (fun p => p.1 == t) = none := by
  induction l with
  | nil => rfl
  | cons p rest ih =>
    by_cases h : p.1 = t
    · simp [List.filter_cons, h, ih]
    · simp [List.filter_cons, h, List.find?_cons, ih]

/-- Filtering out one key leaves lookups of every other key unchanged. -/
theorem find?_filter_other {α : Type} (l : List (String × α)) (t t2 : String)
    (h : t2 ≠ t) :
    (l.filter (fun p => p.1 != t)).find? (fun p => p.1 == t2) =
      l.find? (fun p => p.1 == t2) := by
  induction l with
  | nil => rfl
  | cons p rest ih =>
    by_cases hp : p.1 = t
    · have ht2 : t ≠ t2 := fun hc => h hc.symm
      simp [List.filter_cons, hp, List.find?_cons, ht2, ih]
    · by_cases hq : p.1 = t2
      · simp [List.filter_cons, hp, List.find?_cons, hq, h]
      · simp [List.filter_cons, hp, List.find?_cons, hq, ih]

/-- After `delete`, lookup of the deleted session token is absent. -/
theorem get_del_self (st : SessionStore) (t : String) :
    (st.del t).get t = none := by
  simp [SessionStore.del, SessionStore.get, find?_filter_ne]

/-- After `delete`, lookup of any other session token is unchanged. -/
theorem get_del_other (st : SessionStore) (t t2 : String) (h : t2 ≠ t) :
    (st.del t).get t2 = st.get t2 := by
  simp [SessionStore.del, SessionStore.get, find?_filter_other st t t2 h]

/-- After `delete`, the deleted OAuth state is no longer pending. -/
theorem hasState_del_self (st : StateStore) (s : String) :
    (st.del s).hasState s = false := by
  induction st with
  | nil => rfl
  | cons p rest ih =>
    by_cases h : p.1 = s
    · simp only [StateStore.del, List.filter_cons] at ih ⊢
      simp [h, ih]
    · simp only [StateStore.del, List.filter_cons] at ih ⊢
      simp [h, StateStore.hasState] at ih ⊢

/-- In a list with no duplicate keys, a key determines its value. -/
theorem key_unique {α : Type} {l : List (String × α)}
    (h : (l.map Prod.fst).Nodup) {s : String} {a b : α}
    (ha : (s, a) ∈ l) (hb : (s, b) ∈ l) : a = b := by
  induction l with
  | nil => cases ha
  | cons p rest ih =>
    rw [List.map_cons, List.nodup_cons] at h
    rcases List.mem_cons.mp ha with ha1 | ha2
    · rcases List.mem_cons.mp hb with hb1 | hb2
      · rw [← ha1] at hb1
        exact (Prod.ext_iff.mp hb1).2.symm
      · have hp1 : p.1 = s := by rw [← ha1]
        refine absurd ?_ h.1
        rw [hp1]
        exact List.mem_map.mpr ⟨(s, b), hb2, rfl⟩
    · rcases List.mem_cons.mp hb with hb1 | hb2
      · have hp1 : p.1 = s := by rw [← hb1]
        refine absurd ?_ h.1
        rw [hp1]
        exact List.mem_map.mpr ⟨(s, a), ha2, rfl⟩
      · exact ih h.2 ha2 hb2

/-- Claim C7: for every stored session, lookup with its token returns the
session while `now ≤ expiresAt` (leaving the store unchanged) and returns
absent once `now > expiresAt`; the first lookup performed after expiry
removes the entry from the store, so the session is absent for all
subsequent lookups; and lookup never alters any stored record (every
record present after a lookup was already present, unchanged, before it —
in particular no `expiresAt` is ever extended by access). -/
theorem getSession_lookup_spec (st : SessionStore) (t : String)
    (sess : SessRec) (now : Nat) (hfind : st.get t = some sess) :
    (now ≤ sess.expiresAt →
      getSession st (some t) now = (some (t, sess), st)) ∧
    (now > sess.expiresAt →
      (getSession st (some t) now).1 = none ∧
      ((getSession st (some t) now).2).get t = none ∧
      (∀ later,
        (getSession ((getSession st (some t) now).2) (some t) later).1 =
          none)) ∧
    (∀ t2 r, ((getSession st (some t) now).2).get t2 = some r →
      st.get t2 = some r) := by
  refine ⟨fun h => ?_, fun h => ?_, fun t2 r hr => ?_⟩
  · simp [getSession, hfind, Nat.not_lt.mpr h]
  · have hs : getSession st (some t) now = (none, st.del t) := by
      simp [getSession, hfind, h]
    refine ⟨by rw [hs], by rw [hs]; exact get_del_self st t, fun later => ?_⟩
    rw [hs]
    simp [getSession, get_del_self st t]
  · by_cases hcase : now > sess.expiresAt
    · have hs : getSession st (some t) now = (none, st.del t) := by
        simp [getSession, hfind, hcase]
      rw [hs] at hr
      by_cases ht : t2 = t
      · rw [ht, get_del_self] at hr
        cases hr
      · rw [get_del_other st t t2 ht] at hr
        exact hr
    · have hs : getSession st (some t) now = (some (t, sess), st) := by
        simp [getSession, hfind, hcase]
      rw [hs] at hr
      exact hr

/-- Witness for C7 at a concrete store: a session with `expiresAt = 100`
is still returned at `now = 100`. -/
theorem getSession_lookup_spec_witness :
    getSession [("tk", ⟨⟨"s", "e", "n", "p"⟩, 0, 100⟩)] (some "tk") 100 =
      (some ("tk", ⟨⟨"s", "e", "n", "p"⟩, 0, 100⟩),
        [("tk", ⟨⟨"s", "e", "n", "p"⟩, 0, 100⟩)]) := by
  have h := getSession_lookup_spec [("tk", ⟨⟨"s", "e", "n", "p"⟩, 0, 100⟩)]
    "tk" ⟨⟨"s", "e", "n", "p"⟩, 0, 100⟩ 100 (by decide)
  exact h.1 (by decide)

/-- Claim C4: for every request to a protected (non-public) path carrying
no valid session, the gate's decision is determined by the path shape
alone: an `/api/`-prefixed or `.json`-suffixed path gets the 401 JSON
envelope (no redirect), every other path gets a 302 redirect to `/login`;
and every path in the public allow-list proceeds with no session at all. -/
theorem requireAuth_no_session_spec (st : SessionStore)
    (token : Option String) (now : Nat) (pathname : String)
    (hns : (getSession st token now).1 = none) :
    (publicPaths.contains pathname = false →
      (strStartsWith pathname "/api/" || strEndsWith pathname ".json") = true →
      (requireAuth st token now pathname).1 =
        .unauthorizedJson 401 false "unauthorized") ∧
    (publicPaths.contains pathname = false →
      (strStartsWith pathname "/api/" || strEndsWith pathname ".json") = false →
      (requireAuth st token now pathname).1 = .redirect 302 "/login") ∧
    (∀ st2 token2 now2, publicPaths.contains pathname = true →
      (requireAuth st2 token2 now2 pathname).1 = .proceed none) := by
  rcases hgs : getSession st token now with ⟨o, st2⟩
  rw [hgs] at hns
  simp only at hns
  subst hns
  refine ⟨fun hpub hshape => ?_, fun hpub hshape => ?_,
    fun st2b token2 now2 hpub => ?_⟩
  · have hpub2 : pathname ∉ publicPaths := by simpa using hpub
    simp [requireAuth, hpub2, hgs, hshape]
  · have hpub2 : pathname ∉ publicPaths := by simpa using hpub
    simp [requireAuth, hpub2, hgs, hshape]
  · have hpub2 : pathname ∈ publicPaths := by simpa using hpub
    simp [requireAuth, hpub2]

/-- Witness for C4 on concrete requests with no cookie: `/api/refresh`
gets the 401 JSON envelope, `/dashboard` gets the 302 to `/login`, and the
public `/login` proceeds. -/
theorem requireAuth_no_session_spec_witness :
    (requireAuth [] none 0 "/api/refresh").1 =
      .unauthorizedJson 401 false "unauthorized" ∧
    (requireAuth [] none 0 "/dashboard").1 = .redirect 302 "/login" ∧
    (requireAuth [] none 0 "/login").1 = .proceed none := by
  have h1 := requireAuth_no_session_spec [] none 0 "/api/refresh" (by decide)
  have h2 := requireAuth_no_session_spec [] none 0 "/dashboard" (by decide)
  have h3 := requireAuth_no_session_spec [] none 0 "/login" (by decide)
  exact ⟨h1.1 (by decide) (by decide), h2.2.1 (by decide) (by decide),
    h3.2.2 [] none 0 (by decide)⟩

/-- Claim C3: `verifyGoogleIdToken` fails (returns an error, creating no
identity) if and only if the verification response is not a successful
parseable payload (non-200 status, unparseable body, or a `null` payload —
which then carries no audience claim equal to the client id), the audience
claim differs from the configured client id, the email-verified claim is
not `'true'`, or the allow-list is non-empty and does not contain the
lower-cased email, as collected in the spec-worded `specVerifyRejects`; in
particular a mismatched audience is rejected for every combination of the
other claims, and on success the identity carries the lower-cased email. -/
theorem verifyGoogleIdToken_spec (clientId : String)
    (allowedEmails : List String) (resp : ProviderResponse) :
    ((∃ e, verifyGoogleIdToken clientId allowedEmails resp = .error e) ↔
      specVerifyRejects clientId allowedEmails resp = true) ∧
    (∀ payload idy, resp.parsed = some (some payload) →
      verifyGoogleIdToken clientId allowedEmails resp = .ok idy →
      idy.email = strToLower (jsOr payload.email "") ∧
      idy.sub = payload.sub ∧
      idy.name = jsOr payload.name idy.email ∧
      idy.picture = jsOr payload.picture "") := by
  obtain ⟨sc, parsed⟩ := resp
  constructor
  · rcases parsed with _ | (_ | payload)
    · by_cases hsc : sc = 200 <;>
        simp [verifyGoogleIdToken, specVerifyRejects, hsc]
    · by_cases hsc : sc = 200 <;>
        simp [verifyGoogleIdToken, specVerifyRejects, hsc]
    · by_cases hsc : sc = 200
      · subst hsc
        by_cases haud : payload.aud = some clientId
        · by_cases hver : payload.email_verified = some "true"
          · by_cases hne : allowedEmails = []
            · simp [verifyGoogleIdToken, specVerifyRejects, haud, hver, hne]
            · by_cases hc : allowedEmails.contains
                (strToLower (jsOr payload.email "")) = true
              · have hm : strToLower (jsOr payload.email "") ∈
                    allowedEmails := by simpa using hc
                simp [verifyGoogleIdToken, specVerifyRejects, haud, hver,
                  hne, hm]
              · have hm : strToLower (jsOr payload.email "") ∉
                    allowedEmails := by simpa using hc
                simp [verifyGoogleIdToken, specVerifyRejects, haud, hver,
                  hne, hm, List.isEmpty_iff]
          · simp [verifyGoogleIdToken, specVerifyRejects, haud, hver]
        · simp [verifyGoogleIdToken, specVerifyRejects, haud]
      · simp [verifyGoogleIdToken, specVerifyRejects, hsc]
  · rcases parsed with _ | (_ | pl)
    · intro payload idy hp hok
      simp at hp
    · intro payload idy hp hok
      simp at hp
    · intro payload idy hp hok
      simp only [Option.some.injEq] at hp
      subst hp
      by_cases h1 : sc = 200
      · subst h1
        by_cases h2 : pl.aud = some clientId
        · by_cases h3 : pl.email_verified = some "true"
          · by_cases h4 : allowedEmails ≠ [] ∧
                ¬ allowedEmails.contains (strToLower (jsOr pl.email "")) = true
            · have hm : strToLower (jsOr pl.email "") ∉ allowedEmails := by
                simpa using h4.2
              simp [verifyGoogleIdToken, h2, h3, h4.1, hm] at hok
            · have hv : verifyGoogleIdToken clientId allowedEmails
                  ⟨200, some (some pl)⟩ =
                    .ok { sub := pl.sub,
                          email := strToLower (jsOr pl.email ""),
                          name := jsOr pl.name
                            (strToLower (jsOr pl.email "")),
                          picture := jsOr pl.picture "" } := by
                simp [verifyGoogleIdToken, h2, h3]
                intro hne2
                by_contra hnm
                exact h4 ⟨hne2, by simpa using hnm⟩
              rw [hv, Except.ok.injEq] at hok
              subst hok
              exact ⟨rfl, rfl, rfl, rfl⟩
          · simp [verifyGoogleIdToken, h2, h3] at hok
        · simp [verifyGoogleIdToken, h2] at hok
      · simp [verifyGoogleIdToken, h1] at hok

/-- Witness for C3 at concrete inputs: a response whose audience differs
from the client id while every other claim is valid is rejected. -/
theorem verifyGoogleIdToken_spec_witness :
    specVerifyRejects "cid" []
      ⟨200, some (some ⟨some "other", some "true", some "a@b.c", "s",
        none, none⟩)⟩ = true ∧
    (∃ e, verifyGoogleIdToken "cid" []
      ⟨200, some (some ⟨some "other", some "true", some "a@b.c", "s",
        none, none⟩)⟩ = .error e) := by
  refine ⟨by decide, ?_⟩
  exact (verifyGoogleIdToken_spec "cid" []
    ⟨200, some (some ⟨some "other", some "true", some "a@b.c", "s",
      none, none⟩)⟩).1.mpr (by decide)

/-- Claim C5: when the configured allow-list is empty, every assertion
passing the audience and email-verified checks is accepted; when it is
non-empty, an assertion is accepted only if its lower-cased email is a
member, and membership of the lower-cased email suffices. -/
theorem allowList_policy (clientId : String) (allowedEmails : List String)
    (payload : TokenInfo) (haud : payload.aud = some clientId)
    (hver : payload.email_verified = some "true") :
    (allowedEmails = [] →
      verifyGoogleIdToken clientId allowedEmails ⟨200, some (some payload)⟩ =
        .ok { sub := payload.sub,
              email := strToLower (jsOr payload.email ""),
              name := jsOr payload.name (strToLower (jsOr payload.email "")),
              picture := jsOr payload.picture "" }) ∧
    (∀ idy,
      verifyGoogleIdToken clientId allowedEmails ⟨200, some (some payload)⟩ =
          .ok idy →
        allowedEmails ≠ [] → allowedEmails.contains idy.email = true) ∧
    (allowedEmails.contains (strToLower (jsOr payload.email "")) = true →
      verifyGoogleIdToken clientId allowedEmails ⟨200, some (some payload)⟩ =
        .ok { sub := payload.sub,
              email := strToLower (jsOr payload.email ""),
              name := jsOr payload.name (strToLower (jsOr payload.email "")),
              picture := jsOr payload.picture "" }) := by
  refine ⟨fun hne => ?_, fun idy hok hne => ?_, fun hc => ?_⟩
  · simp [verifyGoogleIdToken, haud, hver, hne]
  · by_cases hc : allowedEmails.contains
        (strToLower (jsOr payload.email "")) = true
    · have hv : verifyGoogleIdToken clientId allowedEmails
          ⟨200, some (some payload)⟩ =
            .ok { sub := payload.sub,
                  email := strToLower (jsOr payload.email ""),
                  name := jsOr payload.name
                    (strToLower (jsOr payload.email "")),
                  picture := jsOr payload.picture "" } := by
        simp [verifyGoogleIdToken, haud, hver]
        intro _
        simpa using hc
      rw [hv, Except.ok.injEq] at hok
      subst hok
      exact hc
    · have hm : strToLower (jsOr payload.email "") ∉ allowedEmails := by
        simpa using hc
      simp [verifyGoogleIdToken, haud, hver, hne, hm] at hok
  · simp [verifyGoogleIdToken, haud, hver]
    intro _
    simpa using hc

/-- Witness for C5 at concrete inputs: with an empty allow-list any
verified identity is accepted; with the allow-list containing the email it
is accepted; the acceptance email is a member when the list is non-empty. -/
theorem allowList_policy_witness :
    verifyGoogleIdToken "cid" [] ⟨200, some (some ⟨some "cid", some "true",
      some "A@B.c", "s", none, none⟩)⟩ =
      .ok ⟨"s", "a@b.c", "a@b.c", ""⟩ ∧
    verifyGoogleIdToken "cid" ["a@b.c"] ⟨200, some (some ⟨some "cid",
      some "true", some "A@B.c", "s", none, none⟩)⟩ =
      .ok ⟨"s", "a@b.c", "a@b.c", ""⟩ := by
  have h := allowList_policy "cid" []
    ⟨some "cid", some "true", some "A@B.c", "s", none, none⟩ rfl rfl
  have h2 := allowList_policy "cid" ["a@b.c"]
    ⟨some "cid", some "true", some "A@B.c", "s", none, none⟩ rfl rfl
  constructor
  · have := h.1 rfl
    simpa using this
  · have := h2.2.2 (by decide)
    simpa using this

/-! Helper lemmas about string prefixes and the callback handler. -/

/-- `String.append` concatenates the underlying character lists. -/
theorem strData_append (a b : String) : (a ++ b).data = a.data ++ b.data := by
  cases a
  cases b
  rfl

/-- A list is a `listPre`-prefix of itself followed by anything. -/
theorem listPre_append (a r : List Char) : listPre a (a ++ r) = true := by
  induction a with
  | nil => rfl
  | cons x as ih => simp [listPre, ih]

/-- A string `startsWith` itself followed by anything. -/
theorem strStartsWith_append (p x : String) :
    strStartsWith (p ++ x) p = true := by
  unfold strStartsWith
  rw [strData_append]
  exact listPre_append _ _

/-- Every failure redirect the callback builds starts with `/login`. -/
theorem loginRedirect_starts (e : String) :
    strStartsWith ("/login?error=" ++ e) "/login" = true := by
  have hd : ("/login?error=" ++ e).data =
      "/login".data ++ ("?error=".data ++ e.data) := by
    rw [strData_append, ← List.append_assoc]
    rfl
  unfold strStartsWith
  rw [hd]
  exact listPre_append _ _

/-- With no provider error, a non-empty pending state and a non-empty
code, the callback deletes the state before the provider calls and reaches
the code exchange, whatever the provider outcome. -/
theorem handleCallback_consumes (params : CallbackParams)
    (states : StateStore) (sessions : SessionStore)
    (pr : Except String Identity) (tok : String) (now : Nat) (sec : Bool)
    (herr : params.error = "") (hst : params.state ≠ "")
    (hcode : params.code ≠ "")
    (hpend : states.hasState params.state = true) :
    (handleCallback params states sessions pr tok now sec).oauthStates =
      states.del params.state ∧
    (handleCallback params states sessions pr tok now sec).exchangedCode =
      true := by
  cases pr <;> simp [handleCallback, herr, hst, hcode, hpend]

/-- Claim C2: a pending state is consumed exactly once: the first callback
presenting it (with no provider error and a code) reaches the exchange and
removes the state from the pending set, and any subsequent callback
presenting the same state value never reaches the exchange and (when it
carries no provider error) is answered with the invalid-state redirect. -/
theorem state_consumed_exactly_once (params params2 : CallbackParams)
    (states : StateStore) (sessions sessions2 : SessionStore)
    (pr pr2 : Except String Identity) (tok tok2 : String) (now now2 : Nat)
    (sec sec2 : Bool) (herr : params.error = "") (hst : params.state ≠ "")
    (hcode : params.code ≠ "")
    (hpend : states.hasState params.state = true)
    (hsame : params2.state = params.state) :
    (handleCallback params states sessions pr tok now sec).exchangedCode =
      true ∧
    ((handleCallback params states sessions pr tok now sec).oauthStates).hasState
      params.state = false ∧
    (handleCallback params2
      (handleCallback params states sessions pr tok now sec).oauthStates
      sessions2 pr2 tok2 now2 sec2).exchangedCode = false ∧
    (params2.error = "" →
      (handleCallback params2
        (handleCallback params states sessions pr tok now sec).oauthStates
        sessions2 pr2 tok2 now2 sec2).response =
        .redirect "/login?error=invalid_oauth_state") := by
  obtain ⟨hdel, hex⟩ :=
    handleCallback_consumes params states sessions pr tok now sec herr hst
      hcode hpend
  have hnot : ((handleCallback params states sessions pr tok now
      sec).oauthStates).hasState params2.state = false := by
    rw [hdel, hsame]
    exact hasState_del_self states params.state
  refine ⟨hex, ?_, ?_, ?_⟩
  · rw [hsame] at hnot
    exact hnot
  · rw [hdel] at hnot ⊢
    by_cases herr2 : params2.error = ""
    · simp [handleCallback, herr2, hnot]
    · simp [handleCallback, herr2]
  · intro herr2
    rw [hdel] at hnot ⊢
    simp [handleCallback, herr2, hnot]

/-- Witness for C2: a second callback with the state consumed by a first
callback does not reach the exchange. -/
theorem state_consumed_exactly_once_witness :
    (handleCallback ⟨"st1", "c2", ""⟩
      (handleCallback ⟨"st1", "code1", ""⟩ [("st1", 5)] [] (.error "e") "t"
        6 false).oauthStates [] (.error "e") "t2" 7 false).exchangedCode =
      false := by
  exact (state_consumed_exactly_once ⟨"st1", "code1", ""⟩ ⟨"st1", "c2", ""⟩
    [("st1", 5)] [] [] (.error "e") (.error "e") "t" "t2" 6 7 false false
    rfl (by decide) (by decide) (by decide) rfl).2.2.1

/-- Claim C6: the callback reaches the code exchange only if the presented
state is pending (and non-empty, with a code) and no provider error was
reported; a state not currently pending is rejected with a redirect to the
login page regardless of the code; a provider error is answered with the
login redirect carrying that error, without exchange. -/
theorem callback_no_exchange_unless_pending (params : CallbackParams)
    (states : StateStore) (sessions : SessionStore)
    (pr : Except String Identity) (tok : String) (now : Nat) (sec : Bool) :
    ((handleCallback params states sessions pr tok now sec).exchangedCode =
        true →
      params.error = "" ∧ params.state ≠ "" ∧
      states.hasState params.state = true ∧ params.code ≠ "") ∧
    (states.hasState params.state = false →
      (handleCallback params states sessions pr tok now sec).exchangedCode =
        false ∧
      ∃ loc, (handleCallback params states sessions pr tok now
          sec).response = .redirect loc ∧
        strStartsWith loc "/login" = true) ∧
    (params.error ≠ "" →
      (handleCallback params states sessions pr tok now sec).response =
        .redirect ("/login?error=" ++ encodeURIComponent params.error) ∧
      (handleCallback params states sessions pr tok now sec).exchangedCode =
        false) := by
  refine ⟨fun hex => ?_, fun hpend => ?_, fun herr => ?_⟩
  · by_cases herr : params.error = ""
    · by_cases hst : params.state = ""
      · simp [handleCallback, herr, hst] at hex
      · by_cases hpend : states.hasState params.state = true
        · by_cases hcode : params.code = ""
          · simp [handleCallback, herr, hcode] at hex
          · exact ⟨herr, hst, hpend, hcode⟩
        · have hp2 : states.hasState params.state = false := by
            simpa using hpend
          simp [handleCallback, herr, hp2] at hex
    · simp [handleCallback, herr] at hex
  · constructor
    · by_cases herr : params.error = ""
      · simp [handleCallback, herr, hpend]
      · simp [handleCallback, herr]
    · by_cases herr : params.error = ""
      · exact ⟨"/login?error=invalid_oauth_state",
          by simp [handleCallback, herr, hpend], by decide⟩
      · refine ⟨"/login?error=" ++ encodeURIComponent params.error,
          by simp [handleCallback, herr], ?_⟩
        exact loginRedirect_starts (encodeURIComponent params.error)
  · simp [handleCallback, herr]

/-- Witness for C6: a callback with a never-issued state and a code
present does not reach the exchange. -/
theorem callback_no_exchange_unless_pending_witness :
    (handleCallback ⟨"zzz", "xyz", ""⟩ [("issued", 0)] [] (.error "e") "t"
      1 false).exchangedCode = false := by
  exact ((callback_no_exchange_unless_pending ⟨"zzz", "xyz", ""⟩
    [("issued", 0)] [] (.error "e") "t" 1 false).2.1 (by decide)).1

/-- Claim C9: once the pending-state check passes, the state entry is
deleted before the exchange begins and the deletion is never rolled back:
when the exchange or verification fails, the state stays removed (a retry
with the same state never reaches the exchange), the session store is
untouched, and the response is the bare login redirect — no cookie set. -/
theorem callback_delete_no_rollback (params : CallbackParams)
    (states : StateStore) (sessions : SessionStore) (e : String)
    (tok : String) (now : Nat) (sec : Bool) (herr : params.error = "")
    (hst : params.state ≠ "") (hcode : params.code ≠ "")
    (hpend : states.hasState params.state = true) :
    (handleCallback params states sessions (.error e) tok now
      sec).oauthStates = states.del params.state ∧
    ((handleCallback params states sessions (.error e) tok now
      sec).oauthStates).hasState params.state = false ∧
    (handleCallback params states sessions (.error e) tok now
      sec).sessions = sessions ∧
    (handleCallback params states sessions (.error e) tok now
      sec).response = .redirect ("/login?error=" ++ encodeURIComponent e) ∧
    (∀ params2 sessions2 pr2 tok2 now2 sec2, params2.state = params.state →
      (handleCallback params2
        (handleCallback params states sessions (.error e) tok now
          sec).oauthStates sessions2 pr2 tok2 now2 sec2).exchangedCode =
        false) := by
  have hall : handleCallback params states sessions (.error e) tok now sec =
      { response := .redirect ("/login?error=" ++ encodeURIComponent e),
        oauthStates := states.del params.state, sessions := sessions,
        exchangedCode := true } := by
    simp [handleCallback, herr, hst, hcode, hpend]
  refine ⟨by rw [hall], ?_, by rw [hall], by rw [hall], ?_⟩
  · rw [hall]
    exact hasState_del_self states params.state
  · intro params2 sessions2 pr2 tok2 now2 sec2 hsame
    rw [hall]
    have hnot : (states.del params.state).hasState params2.state = false := by
      rw [hsame]
      exact hasState_del_self states params.state
    by_cases herr2 : params2.error = ""
    · simp [handleCallback, herr2, hnot]
    · simp [handleCallback, herr2]

/-- Witness for C9: a failing exchange leaves the state deleted and the
session store empty, with the bare error redirect. -/
theorem callback_delete_no_rollback_witness :
    (handleCallback ⟨"s9", "c9", ""⟩ [("s9", 0)] [] (.error "boom") "t" 1
      false).sessions = ([] : SessionStore) := by
  exact (callback_delete_no_rollback ⟨"s9", "c9", ""⟩ [("s9", 0)] []
    "boom" "t" 1 false rfl (by decide) (by decide) (by decide)).2.2.1

/-- Claim C10: a callback carrying a provider error parameter leaves both
stores unchanged (the pending state, if any, remains consumable), creates
no session, reaches no exchange, and redirects to the login page carrying
the error. -/
theorem callback_provider_error_frame (params : CallbackParams)
    (states : StateStore) (sessions : SessionStore)
    (pr : Except String Identity) (tok : String) (now : Nat) (sec : Bool)
    (herr : params.error ≠ "") :
    (handleCallback params states sessions pr tok now sec).response =
      .redirect ("/login?error=" ++ encodeURIComponent params.error) ∧
    (handleCallback params states sessions pr tok now sec).oauthStates =
      states ∧
    (handleCallback params states sessions pr tok now sec).sessions =
      sessions ∧
    (handleCallback params states sessions pr tok now sec).exchangedCode =
      false := by
  simp [handleCallback, herr]

/-- Witness for C10: a provider-error callback with the state still
pending leaves the pending set unchanged. -/
theorem callback_provider_error_frame_witness :
    (handleCallback ⟨"s10", "c", "access_denied"⟩ [("s10", 3)] []
      (.error "e") "t" 4 false).oauthStates = [("s10", 3)] := by
  exact (callback_provider_error_frame ⟨"s10", "c", "access_denied"⟩
    [("s10", 3)] [] (.error "e") "t" 4 false (by decide)).2.1

/-- Claim C1 fails on the code: the callback performs no age check, so a
state older than the TTL that is still in the pending set (the sweep runs
only every 60 seconds) passes validation on first use and the handler
proceeds to the code exchange. Concretely: a state issued at time 0 and
presented at `STATE_TTL_MS + 59999` (before the sweep tick that would
remove it) is accepted. -/
theorem stale_state_consumed_counterexample :
    STATE_TTL_MS + 59999 - 0 > STATE_TTL_MS ∧
    (StateStore.hasState [("stale", 0)] "stale" = true) ∧
    (handleCallback ⟨"stale", "code", ""⟩ [("stale", 0)] [] (.error "x")
      "tok" (STATE_TTL_MS + 59999) false).exchangedCode = true := by
  decide

/-- Claim C1 amended: TTL enforcement happens only in the periodic sweep,
not in the callback's validation; what holds is that once the sweep has
run at time `now`, every state issued more than the TTL before `now` is
gone from the pending set, and a callback presenting it is rejected: it
never reaches the code exchange and (with no provider error) is answered
with the invalid-state redirect. -/
theorem stale_state_rejected_after_sweep (states : StateStore)
    (sessions : SessionStore) (params : CallbackParams)
    (pr : Except String Identity) (tok : String) (issuedAt now : Nat)
    (sec : Bool) (hmem : (params.state, issuedAt) ∈ states)
    (hnodup : (states.map Prod.fst).Nodup)
    (hold : now - issuedAt > STATE_TTL_MS) :
    (sweep now states).hasState params.state = false ∧
    (handleCallback params (sweep now states) sessions pr tok now
      sec).exchangedCode = false ∧
    (params.error = "" →
      (handleCallback params (sweep now states) sessions pr tok now
        sec).response = .redirect "/login?error=invalid_oauth_state") := by
  have hswp : (sweep now states).hasState params.state = false := by
    by_contra hc
    have hc2 : (sweep now states).hasState params.state = true := by
      simpa using hc
    rw [StateStore.hasState, List.any_eq_true] at hc2
    obtain ⟨p, hpmem, hpeq⟩ := hc2
    rw [sweep, List.mem_filter] at hpmem
    obtain ⟨hpmem2, hkeep⟩ := hpmem
    have hk : p.1 = params.state := by simpa using hpeq
    have hpair : (params.state, p.2) ∈ states := by
      rw [← hk]
      exact hpmem2
    have heq : p.2 = issuedAt := key_unique hnodup hpair hmem
    rw [heq] at hkeep
    simp at hkeep
    omega
  refine ⟨hswp, ?_, ?_⟩
  · by_cases herr : params.error = ""
    · simp [handleCallback, herr, hswp]
    · simp [handleCallback, herr]
  · intro herr
    simp [handleCallback, herr, hswp]

/-- Witness for C1's amended statement: a state issued at 0 is gone from
the pending set after a sweep at `STATE_TTL_MS + 1`. -/
theorem stale_state_rejected_after_sweep_witness :
    (sweep (STATE_TTL_MS + 1) ([("old", 0)] : StateStore)).hasState "old" =
      false := by
  exact (stale_state_rejected_after_sweep [("old", 0)] [] ⟨"old", "c", ""⟩
    (.error "e") "t" 0 (STATE_TTL_MS + 1) false (by decide) (by decide)
    (by decide)).1

/-! Helper lemmas for the static-file traversal guard. -/

/-- `listPre` agrees with the list prefix relation. -/
theorem listPre_iff (a b : List Char) : listPre a b = true ↔ a <+: b := by
  induction a generalizing b with
  | nil => simp [listPre]
  | cons x as ih =>
    cases b with
    | nil => simp [listPre]
    | cons y bs => simp [listPre, List.cons_prefix_cons, ih]

/-- `listPre` is transitive. -/
theorem listPre_trans {a b c : List Char} (h1 : listPre a b = true)
    (h2 : listPre b c = true) : listPre a c = true := by
  rw [listPre_iff] at h1 h2 ⊢
  exact h1.trans h2

/-- The URL parser's dot-segment removal never outputs a `..` segment. -/
theorem urlRemoveDots_aux (raw : List String) :
    ∀ acc : List String, (∀ s ∈ acc, s ≠ "..") →
      ∀ s ∈ raw.foldl
        (fun acc seg =>
          if isDoubleDotSeg seg then acc.dropLast
          else if isSingleDotSeg seg then acc
          else acc ++ [seg]) acc, s ≠ ".." := by
  induction raw with
  | nil =>
    intro acc hacc s hs
    exact hacc s hs
  | cons seg rest ih =>
    intro acc hacc
    simp only [List.foldl_cons]
    by_cases h1 : isDoubleDotSeg seg = true
    · rw [if_pos h1]
      exact ih acc.dropLast
        (fun s hs => hacc s ((List.dropLast_sublist acc).subset hs))
    · rw [if_neg h1]
      by_cases h2 : isSingleDotSeg seg = true
      · rw [if_pos h2]
        exact ih acc hacc
      · rw [if_neg h2]
        refine ih (acc ++ [seg]) ?_
        intro s hs
        rcases List.mem_append.mp hs with hs1 | hs2
        · exact hacc s hs1
        · rw [List.mem_singleton] at hs2
          subst hs2
          intro hcon
          apply h1
          rw [hcon]
          decide

/-- Every segment surviving `urlRemoveDots` differs from `..`. -/
theorem urlRemoveDots_no_dotdot (raw : List String) :
    ∀ s ∈ urlRemoveDots raw, s ≠ ".." := by
  unfold urlRemoveDots
  exact urlRemoveDots_aux raw [] (by simp)

/-- `path.normalize` leaves a run of plain segments (no empty, dot or
double-dot segments) untouched. -/
theorem foldl_normStep_plain :
    ∀ l : List String, (∀ s ∈ l, s ≠ "" ∧ s ≠ "." ∧ s ≠ "..") →
      ∀ init, List.foldl normStep init l = init ++ l := by
  intro l
  induction l with
  | nil =>
    intro _ init
    simp
  | cons s rest ih =>
    intro hl init
    have hs := hl s (List.mem_cons_self s rest)
    simp only [List.foldl_cons]
    have hstep : normStep init s = init ++ [s] := by
      simp [normStep, hs.1, hs.2.1, hs.2.2]
    rw [hstep, ih (fun x hx => hl x (List.mem_cons_of_mem s hx)) (init ++ [s])]
    simp

/-- Resolving segments containing no `..` can only extend the prefix
already accumulated: `path.normalize` never climbs above it. -/
theorem foldl_normStep_extends :
    ∀ l : List String, (∀ s ∈ l, s ≠ "..") →
      ∀ init, ∃ rest, List.foldl normStep init l = init ++ rest := by
  intro l
  induction l with
  | nil =>
    intro _ init
    exact ⟨[], by simp⟩
  | cons s t ih =>
    intro hl init
    simp only [List.foldl_cons]
    have hs : s ≠ ".." := hl s (List.mem_cons_self s t)
    by_cases h0 : s = "" ∨ s = "."
    · have hstep : normStep init s = init := by simp [normStep, h0]
      rw [hstep]
      exact ih (fun x hx => hl x (List.mem_cons_of_mem s hx)) init
    · have hstep : normStep init s = init ++ [s] := by
        simp [normStep, h0, hs]
      rw [hstep]
      obtain ⟨r, hr⟩ := ih (fun x hx => hl x (List.mem_cons_of_mem s hx))
        (init ++ [s])
      exact ⟨[s] ++ r, by rw [hr, List.append_assoc]⟩

/-- A segment list is a `segPre`-prefix of itself followed by anything. -/
theorem segPre_append (a b : List String) : segPre a (a ++ b) = true := by
  induction a with
  | nil => rfl
  | cons x as ih => simp [segPre, ih]

/-- The rendered absolute path of a segment list starts (as a string) with
the rendered path of any leading portion. -/
theorem strDataAbs_pre (a b : List String) :
    listPre (segsToAbs a).data (segsToAbs (a ++ b)).data = true := by
  unfold segsToAbs
  rw [List.foldl_append]
  generalize List.foldl (fun acc seg => acc ++ "/" ++ seg) "" a = init
  induction b generalizing init with
  | nil =>
    have h := listPre_append init.data []
    simpa using h
  | cons s t ih =>
    simp only [List.foldl_cons]
    have h1 : listPre init.data (init ++ "/" ++ s).data = true := by
      rw [strData_append, strData_append, List.append_assoc]
      exact listPre_append _ _
    exact listPre_trans h1 (ih (init ++ "/" ++ s))

/-- Claim C8: for every raw request path reaching the static file pipeline
(the WHATWG URL parser's dot-segment removal followed by the handler), the
handler either serves a resolved path lying within the fixed root
directory, or answers 403 Forbidden and serves nothing; since the parser
removes every dot segment before the handler runs, no request can make the
resolved path escape the root. The root's own segments are plain path
segments (non-empty, not dot segments), as `path.join(__dirname, 'web')`
produces. -/
theorem static_no_escape (rootSegs rawSegs : List String)
    (hroot : ∀ s ∈ rootSegs, s ≠ "" ∧ s ≠ "." ∧ s ≠ "..") :
    (∃ f, serveStatic rootSegs rawSegs = .serve f ∧
      withinRoot rootSegs f = true) ∨
    serveStatic rootSegs rawSegs = .forbidden := by
  left
  have hreq : ∀ s ∈ (if urlRemoveDots rawSegs = [] ∨
      urlRemoveDots rawSegs = [""] then ["index.html"]
      else urlRemoveDots rawSegs), s ≠ ".." := by
    by_cases hc : urlRemoveDots rawSegs = [] ∨ urlRemoveDots rawSegs = [""]
    · rw [if_pos hc]
      intro s hs
      rw [List.mem_singleton] at hs
      subst hs
      decide
    · rw [if_neg hc]
      exact urlRemoveDots_no_dotdot rawSegs
  obtain ⟨rest, hrest⟩ := foldl_normStep_extends _ hreq rootSegs
  have hsplit : normSegs (rootSegs ++ (if urlRemoveDots rawSegs = [] ∨
      urlRemoveDots rawSegs = [""] then ["index.html"]
      else urlRemoveDots rawSegs)) = rootSegs ++ rest := by
    unfold normSegs
    rw [List.foldl_append, foldl_normStep_plain rootSegs hroot [],
      List.nil_append, hrest]
  have hguard : strStartsWith (segsToAbs (rootSegs ++ rest))
      (segsToAbs rootSegs) = true := by
    unfold strStartsWith
    exact strDataAbs_pre rootSegs rest
  refine ⟨rootSegs ++ rest, ?_, ?_⟩
  · simp [serveStatic, staticHandler, hsplit, hguard]
  · unfold withinRoot
    exact segPre_append rootSegs rest

/-- Witness for C8: a raw request path full of `..` segments is still
served from within the root. -/
theorem static_no_escape_witness :
    (∃ f, serveStatic ["srv", "slice", "web"]
        ["..", "..", "etc", "passwd"] = .serve f ∧
      withinRoot ["srv", "slice", "web"] f = true) ∨
    serveStatic ["srv", "slice", "web"] ["..", "..", "etc", "passwd"] =
      .forbidden := by
  exact static_no_escape ["srv", "slice", "web"]
    ["..", "..", "etc", "passwd"] (by decide)

end Slice
